import Mathlib

/-!
Verification of the crmbl directory-inventory tool (scanner.js, schema.js,
config.js) against its design specification.

The JavaScript sources are shallowly embedded:
* JS runtime values are modelled by `JVal` (numbers as `Int`: every value the
  spec's claims exercise is integral; `NaN`/fractions are not modelled).
* JS property reads `v.k` are modelled by `getProp`, which fails (models a
  thrown `TypeError`) exactly when the base is `null` or `undefined`; code
  that can throw is embedded in `Except String`.
* `Date.parse` success is an environment oracle `dateOk : String → Bool`
  (the embedding never fixes which strings parse), and the clock
  `new Date().toISOString()` is an explicit `now : String` parameter.
* JS objects are association lists assumed key-unique (a JS object cannot
  hold a duplicate key); `lookupField` takes the first binding.
-/

/-- Model of a JavaScript runtime value. -/
inductive JVal : Type
  | null
  | undef
  | bool (b : Bool)
  | num (n : Int)
  | str (s : String)
  | arr (elems : List JVal)
  | obj (fields : List (String × JVal))

/-- First binding of `key` in an object's field list; `undefined` when missing
(a JS object read of an absent property). -/
def lookupField : List (String × JVal) → String → JVal
  | [], _ => .undef
  | (k, v) :: rest, key => if k == key then v else lookupField rest key

/-- JS truthiness: `null`, `undefined`, `false`, `0` and `""` are falsy. -/
def truthy : JVal → Bool
  | .null => false
  | .undef => false
  | .bool b => b
  | .num n => n != 0
  | .str s => !(s == "")
  | .arr _ => true
  | .obj _ => true

/-- `a || b` on JS values. -/
def jsOr (a b : JVal) : JVal := if truthy a then a else b

def isUndef : JVal → Bool
  | .undef => true
  | _ => false

def isArr : JVal → Bool
  | .arr _ => true
  | _ => false

/-- `typeof v === 'object'`: true for objects, arrays and — the JS quirk the
schema code trips over — for `null`. -/
def typeofIsObject : JVal → Bool
  | .null => true
  | .obj _ => true
  | .arr _ => true
  | _ => false

/-- JS property read `v[k]`: throws `TypeError` on a `null`/`undefined` base,
yields `undefined` on primitives, looks the key up on objects. (Named
properties of arrays and strings other than indices are not modelled; no
claim reads one.) -/
def getProp : JVal → String → Except String JVal
  | .null, _ => .error "TypeError"
  | .undef, _ => .error "TypeError"
  | .obj fields, k => .ok (lookupField fields k)
  | _, _ => .ok (.undef)

/-- Total property read, used only where the source has already checked the
base for truthiness (so it cannot be `null`/`undefined`). -/
def propOf : JVal → String → JVal
  | .obj fields, k => lookupField fields k
  | _, _ => (.undef)

/-- `Object.keys`: field names of an object (deduplicated — a JS object's keys
are unique), index strings for arrays and strings, empty otherwise. (The JS
integer-keys-first ordering is not modelled; every consumer in the sources
re-sorts or only counts.) -/
def objectKeysJ : JVal → List String
  | .obj fields => (fields.map Prod.fst).dedup
  | .arr xs => ((List.range xs.length).map (fun i => toString i)).dedup
  | .str s => ((List.range s.length).map (fun i => toString i)).dedup
  | _ => []

/-- `Object.entries` for the two shapes the sources iterate (objects and
arrays). -/
def jsEntries : JVal → List (String × JVal)
  | .obj fields => fields
  | .arr xs => xs.enum.map (fun p => (toString p.1, p.2))
  | _ => []

/-- Own enumerable properties seen by object spread `{...v}`: an object's
fields, a string's indexed characters, nothing for other primitives. -/
def ownProps : JVal → List (String × JVal)
  | .obj fields => fields
  | .str s => s.data.enum.map (fun p => (toString p.1, JVal.str (String.mk [p.2])))
  | _ => []

def hasKey (fields : List (String × JVal)) (k : String) : Bool :=
  fields.any (fun kv => kv.1 == k)

/-- Object spread `{...a, ...b}`: `a`'s keys keep their positions (values
overridden by `b` where both have the key), then `b`'s new keys follow. -/
def spreadMerge (a b : List (String × JVal)) : List (String × JVal) :=
  (a.map fun kv => (kv.1, if hasKey b kv.1 then lookupField b kv.1 else kv.2)) ++
    b.filter (fun kv => !hasKey a kv.1)

/-- Property assignment `o[k] = v` on a field list: updates the existing key
in place, else appends. -/
def setField (fields : List (String × JVal)) (k : String) (v : JVal) :
    List (String × JVal) :=
  if hasKey fields k then
    fields.map (fun kv => if kv.1 == k then (kv.1, v) else kv)
  else fields ++ [(k, v)]

mutual

/-- `JSON.parse(JSON.stringify v)`: object fields with `undefined` values are
dropped, `undefined` array elements become `null`, everything else survives. -/
def jsonRT : JVal → JVal
  | .obj fields => .obj (jsonRTFields fields)
  | .arr xs => .arr (jsonRTList xs)
  | .undef => .null
  | .null => .null
  | .bool b => .bool b
  | .num n => .num n
  | .str s => .str s

def jsonRTFields : List (String × JVal) → List (String × JVal)
  | [] => []
  | (k, v) :: rest =>
    if isUndef v then jsonRTFields rest else (k, jsonRT v) :: jsonRTFields rest

def jsonRTList : List JVal → List JVal
  | [] => []
  | x :: rest => jsonRT x :: jsonRTList rest

end

/-! ## schema.js -/

/-- `createEmptyMap()` (schema.js): fresh manifest stamped with the clock. -/
def createEmptyMap (now : String) : JVal :=
  .obj [("generated", .str now), ("directories", .obj [])]

/-- `createDirectoryEntry(info)` (schema.js): each field defaults via `||`,
so any falsy supplied value is replaced by the default. -/
def createDirectoryEntry (now : String) (info : List (String × JVal)) :
    List (String × JVal) :=
  [("purpose", jsOr (lookupField info "purpose") (.str "")),
   ("complexity", jsOr (lookupField info "complexity") (.num 1)),
   ("changeFrequency", jsOr (lookupField info "changeFrequency") (.str "Unknown")),
   ("entryPoints", jsOr (lookupField info "entryPoints") (.arr [])),
   ("internalDeps", jsOr (lookupField info "internalDeps") (.arr [])),
   ("externalDeps", jsOr (lookupField info "externalDeps") (.arr [])),
   ("readmePath", jsOr (lookupField info "readmePath") (.str "")),
   ("keyFiles", jsOr (lookupField info "keyFiles") (.arr [])),
   ("subdirectories", jsOr (lookupField info "subdirectories") (.arr [])),
   ("lastUpdated", jsOr (lookupField info "lastUpdated") (.str now))]

def validFrequencies : List String := ["Stable", "Moderate", "Frequently Modified", "Unknown"]

/-- The error prefix built for each entry. -/
def entryPfx (dirPath : String) : String := "Directory '" ++ dirPath ++ "':"

/-- The single complexity error message an entry can produce. -/
def complexityError (dirPath : String) : String :=
  entryPfx dirPath ++ " complexity must be a number between 1 and 5"

/-- One `keyFiles` element's checks (`!kf.file`, `!kf.description`): a `null`
or `undefined` element makes the property read throw. -/
def keyFileErrs (pfx : String) (idx : Nat) (kf : JVal) : Except String (List String) := do
  let f ← getProp kf "file"
  let d ← getProp kf "description"
  pure ((if truthy f then [] else [pfx ++ " keyFiles[" ++ toString idx ++ "] missing 'file' field"]) ++
    (if truthy d then [] else [pfx ++ " keyFiles[" ++ toString idx ++ "] missing 'description' field"]))

/-- `validateDirectoryEntry(dirPath, dirInfo)` (schema.js). `typeof null`
being `'object'` lets a `null` entry through the guard, and the subsequent
`.purpose` read throws — hence the `Except`. -/
def validateDirectoryEntry (dirPath : String) (dirInfo : JVal) :
    Except String (List String) := do
  let pfx := entryPfx dirPath
  if !typeofIsObject dirInfo then
    return [pfx ++ " must be an object"]
  let purposeV ← getProp dirInfo "purpose"
  let e1 := if isUndef purposeV then [pfx ++ " missing 'purpose' field"] else []
  let cV ← getProp dirInfo "complexity"
  let e2 := if isUndef cV then []
    else match cV with
      | .num n => if n < 1 || n > 5 then [complexityError dirPath] else []
      | _ => [complexityError dirPath]
  let fV ← getProp dirInfo "changeFrequency"
  let e3 := if isUndef fV then []
    else
      let isValid := match fV with
        | .str s => validFrequencies.contains s
        | _ => false
      if isValid then []
      else [pfx ++ " changeFrequency must be one of: Stable, Moderate, Frequently Modified, Unknown"]
  let e4 ← ["entryPoints", "internalDeps", "externalDeps", "subdirectories"].foldlM
    (fun acc fieldName => do
      let v ← getProp dirInfo fieldName
      pure (acc ++ (if !isUndef v && !isArr v then [pfx ++ " " ++ fieldName ++ " must be an array"] else [])))
    []
  let kV ← getProp dirInfo "keyFiles"
  let e5 ← if isUndef kV then pure []
    else match kV with
      | .arr kfs => do
        let ess ← kfs.enum.mapM (fun p => keyFileErrs pfx p.1 p.2)
        pure ess.flatten
      | _ => pure [pfx ++ " keyFiles must be an array"]
  return e1 ++ e2 ++ e3 ++ e4 ++ e5

/-- Result shape of `validateMap`/`validateConfig`. -/
structure VResult where
  valid : Bool
  errors : List String
deriving DecidableEq

/-- `validateMap(map)` (schema.js). `dateOk` is the `Date.parse` oracle: the
`generated` check applies it to the field's string form. -/
def validateMap (dateOk : String → Bool) (map : JVal) : Except String VResult := do
  if !truthy map then
    return ⟨false, ["Map is null or undefined"]⟩
  let genV ← getProp map "generated"
  let e1 :=
    if !truthy genV then ["Missing required field: generated"]
    else
      let asStr := match genV with
        | .str s => s
        | .num n => toString n
        | .bool b => toString b
        | _ => ""
      if !dateOk asStr then ["Invalid date format for generated field"] else []
  let dV ← getProp map "directories"
  let e2 ← if !truthy dV then pure ["Missing required field: directories"]
    else if !typeofIsObject dV then pure ["directories field must be an object"]
    else do
      let ess ← (jsEntries dV).mapM (fun kv => validateDirectoryEntry kv.1 kv.2)
      pure ess.flatten
  let errs := e1 ++ e2
  return ⟨errs.isEmpty, errs⟩

/-- `updateMap(existingMap, dirPath, dirInfo)` (schema.js): merges `dirInfo`
over freshly created defaults (plain spread — falsy supplied values are NOT
replaced here), stamps `lastUpdated` and `generated`. A base without an
object-shaped `directories` makes the indexed assignment throw. -/
def updateMap (now : String) (existingMap : JVal) (dirPath : String) (dirInfo : JVal) :
    Except String JVal :=
  let m := jsOr existingMap (createEmptyMap now)
  match m with
  | .obj mf =>
    match lookupField mf "directories" with
    | .obj df =>
      let entry : JVal := .obj (setField
        (spreadMerge (createDirectoryEntry now []) (ownProps dirInfo))
        "lastUpdated" (.str now))
      let mf1 := setField mf "directories" (.obj (setField df dirPath entry))
      .ok (.obj (setField mf1 "generated" (.str now)))
    | _ => .error "TypeError"
  | _ => .error "TypeError"

/-! ## config.js -/

def configFilename : String := ".crmbl-config.json"

/-- `DEFAULT_CONFIG` (config.js), as the JS object's field list. -/
def DEFAULT_CONFIG : List (String × JVal) :=
  [("rootPath", .str "./"),
   ("ignore", .arr [.str "node_modules", .str ".git", .str "dist", .str "build",
     .str ".next", .str "coverage", .str ".cache"]),
   ("outputPath", .str "./crmbl-map.json"),
   ("readmeTemplate", .str "templates/readme-template.md")]

/-- State of a JSON file on disk as the loaders see it: missing, unreadable
(read throws), readable but not valid JSON (parse throws), or parsed. -/
inductive DiskJson : Type
  | absent
  | unreadable
  | invalidJson
  | json (v : JVal)

/-- `loadConfig` (config.js). Everything that can throw — the read, the
parse, and the `userConfig.ignore` read when the file held `null` — sits
inside the `try`, whose `catch` falls through to `{...DEFAULT_CONFIG}`, so
the function is total. -/
def loadConfig (file : DiskJson) : List (String × JVal) :=
  match file with
  | .json v =>
    match v with
    | .null => DEFAULT_CONFIG
    | _ =>
      let merged := spreadMerge DEFAULT_CONFIG (ownProps v)
      setField merged "ignore" (jsOr (propOf v "ignore") (lookupField DEFAULT_CONFIG "ignore"))
  | _ => DEFAULT_CONFIG

/-- `findConfig`'s upward walk, on reversed directory segments (each
`path.dirname` step drops the deepest segment): the loop body runs only
while the current directory is not the filesystem root. -/
def findConfigAux (ex : List String → Bool) : List String → Option (List String)
  | [] => none
  | d :: ds =>
    if ex ((d :: ds).reverse ++ [configFilename]) then some ((d :: ds).reverse ++ [configFilename])
    else findConfigAux ex ds

/-- `findConfig(startDir)` (config.js): `ex` is the `fs.existsSync` oracle
over absolute paths (segment lists), `startDir` the resolved start directory
(`[]` is the filesystem root). Returns the config file's path. -/
def findConfig (ex : List String → Bool) (startDir : List String) : Option (List String) :=
  findConfigAux ex startDir.reverse

/-- The chain of directories `findConfig`'s loop visits, by decreasing depth:
all nonempty prefixes of `startDir` — the root `[]` is not among them. -/
def upwardChain (segs : List String) : List (List String) :=
  (List.range segs.length).map (fun k => segs.take (segs.length - k))

/-! ## scanner.js -/

/-- The directory tree under `rootPath`: every directory reachable from the
root, as a list of segment paths relative to the root (the root itself is
`[]` and is not listed; plain files are irrelevant — `findAllDirectories`
discards every non-directory via `statSync`). -/
structure FileSys where
  dirs : List (List String)

/-- Whether a segment is hidden: its first character is a dot
(`String.startsWith "."` in kernel-computable form). -/
def isHiddenSeg (s : String) : Bool :=
  match s.data with
  | c :: _ => c == '.'
  | [] => false

/-- Whether `glob('**/*', {ignore: patterns.map(p => `**/p/**`), dot: false})`
yields this path (glob ≥ 9, as the ESM named import requires): at least one
segment, no hidden (dot-led) segment (`dot:false`), and no segment equal to
an ignore token — an ignore pattern `**/tok/**` excludes every path having
`tok` as any segment, the `tok` directory itself included, and traversal is
pruned below it. Ignore tokens are modelled as literal segment names (every
token the sources ship is wildcard-free). -/
def globIncluded (ignore : List String) (p : List String) : Bool :=
  !p.isEmpty && p.all (fun s => !isHiddenSeg s && !ignore.contains s)

/-- `'/' + file.replace(/\\/g, '/')`: leading-slash normalized path string. -/
def pathStr (p : List String) : String := "/" ++ String.intercalate "/" p

/-- The ancestor paths the scanner materializes for a matched directory:
`'/' + parts.slice(0, i).join('/')` for `1 ≤ i < parts.length`. -/
def ancestorPaths (p : List String) : List String :=
  ((List.range p.length).drop 1).map (fun i => pathStr (p.take i))

/-- Lexicographic comparison of character lists by code point — JS compares
strings by UTF-16 code unit, which agrees with code points on every string
the tool produces. -/
def lexLe : List Char → List Char → Bool
  | [], _ => true
  | _ :: _, [] => false
  | a :: as, b :: bs =>
    if a.toNat < b.toNat then true
    else if b.toNat < a.toNat then false
    else lexLe as bs

def strLe (a b : String) : Bool := lexLe a.data b.data

/-- The (non-strict) string order JS `sort()` sorts by. -/
def StrLe (a b : String) : Prop := strLe a b = true

/-- Strict lexicographic order: "sorted ascending with no duplicates" is
`Pairwise StrLt`. -/
def StrLt (a b : String) : Prop := StrLe a b ∧ a ≠ b

instance : DecidableRel StrLe :=
  fun a b => inferInstanceAs (Decidable (strLe a b = true))

/-- JS `Array.prototype.sort()` on an array of strings: sorts by `StrLe`
(stability is irrelevant — the relation is antisymmetric). -/
def sortJS (l : List String) : List String := l.insertionSort StrLe

/-- `findAllDirectories(rootPath, ignorePatterns)` (scanner.js): glob-matched
directories plus all their ancestors, deduplicated through the `Set`,
sorted. -/
def findAllDirectories (fsys : FileSys) (ignore : List String) : List String :=
  sortJS (((fsys.dirs.filter (globIncluded ignore)).flatMap
    (fun p => pathStr p :: ancestorPaths p)).dedup)

/-- `stats` of a scan result. -/
structure ScanStats where
  total : Nat
  new : Nat
  missing : Nat
  documented : Nat
deriving DecidableEq

structure ScanResult where
  newDirs : List String
  missingDirs : List String
  unchangedDirs : List String
  stats : ScanStats
deriving DecidableEq

/-- `compareDirectories(currentDirs, existingDirs, rootPath)` (scanner.js);
`rootPath` is accepted and unused, as in the source. -/
def compareDirectories (currentDirs existingDirs : List String) (rootPath : String) :
    ScanResult :=
  let newDirs := currentDirs.filter (fun d => !existingDirs.contains d)
  let missingDirs := existingDirs.filter (fun d => !currentDirs.contains d)
  let unchangedDirs := currentDirs.filter (fun d => existingDirs.contains d)
  { newDirs := sortJS newDirs
    missingDirs := sortJS missingDirs
    unchangedDirs := sortJS unchangedDirs
    stats := { total := currentDirs.length, new := newDirs.length,
               missing := missingDirs.length, documented := unchangedDirs.length } }

/-- `readExistingMap(outputPath)` (scanner.js): `null` when the file is
missing or the read or parse threw (the `catch` only warns). -/
def readExistingMap : DiskJson → Option JVal
  | .json v => some v
  | _ => none

/-- `existingMap ? Object.keys(existingMap.directories || {}) : []`
(scanner.js); the parsed value itself may be falsy (e.g. the file held
`null`). -/
def existingDirsOf (mapFile : DiskJson) : List String :=
  match readExistingMap mapFile with
  | some m => if truthy m then objectKeysJ (jsOr (propOf m "directories") (.obj [])) else []
  | none => []

/-- `scanDirectories(config)` (scanner.js): `fsys` is the tree under
`config.rootPath`, `mapFile` the state of the file at `config.outputPath`. -/
def scanDirectories (fsys : FileSys) (rootPath : String) (ignore : List String)
    (mapFile : DiskJson) : ScanResult :=
  compareDirectories (findAllDirectories fsys ignore) (existingDirsOf mapFile) rootPath

/-- Result shape of `verifyDocumentation`: the error branch carries no
counts, the normal branch no `error` field. -/
structure VerifyResult where
  valid : Bool
  missingReadmes : List (String × String)
  totalDirectories : Option Nat
  documented : Option Nat
  error : Option String
deriving DecidableEq

/-- `path.join(a, b)` for the forward-slash paths the tool builds (no `..`
segments arise in them). -/
def pathJoin (a b : String) : String :=
  (if a.data.head? == some '/' then "/" else "") ++
    String.intercalate "/" (((a.splitOn "/") ++ (b.splitOn "/")).filter
      (fun s => !(s == "") && !(s == ".")))

/-- `verifyDocumentation(config, map)` (scanner.js): `ex` is the
`fs.existsSync` oracle over path strings. A `null` entry would make the
`readmePath` read throw; a truthy non-string `readmePath` makes `path.join`
throw. -/
def verifyDocumentation (ex : String → Bool) (rootPath : String) (map : JVal) :
    Except String VerifyResult := do
  if !truthy map then
    return ⟨false, [], none, none, some "No crmbl-map.json found or invalid format"⟩
  let dV ← getProp map "directories"
  if !truthy dV then
    return ⟨false, [], none, none, some "No crmbl-map.json found or invalid format"⟩
  let missing ← (jsEntries dV).foldlM
    (fun acc kv => do
      let rP ← getProp kv.2 "readmePath"
      if truthy rP then
        match rP with
        | .str s => pure (if ex (pathJoin rootPath s) then acc else acc ++ [(kv.1, s)])
        | _ => Except.error "TypeError"
      else
        pure (acc ++ [(kv.1, "No README path specified")]))
    []
  let keyCount := (objectKeysJ dV).length
  return ⟨missing.isEmpty, missing, some keyCount, some (keyCount - missing.length), none⟩

/-! ## Concrete inputs used by the claims -/

/-- The Date.parse oracle under which every timestamp parses. -/
def alwaysDate : String → Bool := fun _ => true

/-- The clock value fixed for the concrete scenarios. -/
def nowT : String := "2025-01-01T00:00:00.000Z"

/-- C1's tree: `/src`, `/src/api`, `/node_modules`, `/node_modules/pkg`. -/
def fsC1 : FileSys := ⟨[["src"], ["src", "api"], ["node_modules"], ["node_modules", "pkg"]]⟩

/-- The scan result C1 predicts. -/
def resC1 : ScanResult :=
  { newDirs := ["/src", "/src/api"], missingDirs := [], unchangedDirs := [],
    stats := { total := 2, new := 2, missing := 0, documented := 0 } }

/-- A parsed manifest with an empty directories mapping. -/
def emptyDirsMap : JVal := .obj [("generated", .str "g"), ("directories", .obj [])]

/-- C3's failing input: a well-formed manifest whose directories mapping
holds a `null` entry value. -/
def c3map : JVal :=
  .obj [("generated", .str nowT), ("directories", .obj [("/a", JVal.null)])]

/-- An existence oracle under which only the filesystem root holds the
config file. -/
def rootOnlyEx : List String → Bool := fun p => p == [configFilename]

/-- Whether a `complexity` value is present and fails the schema's range
check (`typeof !== 'number' || < 1 || > 5`). -/
def badComplexity : JVal → Bool
  | .undef => false
  | .num n => decide (n < 1) || decide (n > 5)
  | _ => true

/-- The ten schema field names of a directory entry. -/
def entryFieldNames : List String :=
  ["purpose", "complexity", "changeFrequency", "entryPoints", "internalDeps",
   "externalDeps", "readmePath", "keyFiles", "subdirectories", "lastUpdated"]

/-- The default value `createDirectoryEntry` gives each field. -/
def entryDefaultVal (now : String) : String → JVal
  | "purpose" => .str ""
  | "complexity" => .num 1
  | "changeFrequency" => .str "Unknown"
  | "entryPoints" => .arr []
  | "internalDeps" => .arr []
  | "externalDeps" => .arr []
  | "readmePath" => .str ""
  | "keyFiles" => .arr []
  | "subdirectories" => .arr []
  | "lastUpdated" => .str now
  | _ => (.undef)

/-- A `keyFiles` element the schema accepts without error: an object with
truthy `file` and `description`. -/
def goodKeyFile : JVal → Bool
  | .obj fields => truthy (lookupField fields "file") && truthy (lookupField fields "description")
  | _ => false

def goodKeyFiles : JVal → Bool
  | .undef => true
  | .arr kfs => kfs.all goodKeyFile
  | _ => false

def isArrOrUndef : JVal → Bool
  | .undef => true
  | .arr _ => true
  | _ => false

/-- A supplied update field that itself satisfies the entry validation
rules (unknown keys are unconstrained — validation ignores them). -/
def goodInfoField : String × JVal → Bool
  | ("purpose", v) => !isUndef v
  | ("complexity", v) =>
    match v with
    | .num n => decide (1 ≤ n) && decide (n ≤ 5)
    | _ => false
  | ("changeFrequency", v) =>
    match v with
    | .str s => validFrequencies.contains s
    | _ => false
  | ("entryPoints", v) | ("internalDeps", v) | ("externalDeps", v) | ("subdirectories", v) =>
    isArrOrUndef v
  | ("keyFiles", v) => goodKeyFiles v
  | _ => true

/-- An update partial whose supplied fields all satisfy the entry rules
(and whose keys are unique, as a JS object's are). -/
def goodInfo (info : List (String × JVal)) : Bool :=
  info.all goodInfoField && decide ((info.map Prod.fst).Nodup)

/-- A chain of `updateMap` applications, as the tool's callers perform. -/
def applyUpdates (now : String) : JVal → List (String × List (String × JVal)) → Except String JVal
  | m, [] => .ok m
  | m, (p, info) :: rest => do applyUpdates now (← updateMap now m p (.obj info)) rest

/-! ## Order theory for `StrLe` -/

theorem char_eq_of_toNat_eq {a b : Char} (h : a.toNat = b.toNat) : a = b := by
  apply Char.eq_of_val_eq
  simp only [Char.toNat] at h
  apply UInt32.eq_of_toBitVec_eq
  apply BitVec.eq_of_toNat_eq
  exact h

theorem lexLe_cons_iff {a b : Char} {as bs : List Char} :
    lexLe (a :: as) (b :: bs) = true ↔
      a.toNat < b.toNat ∨ (a = b ∧ lexLe as bs = true) := by
  simp only [lexLe]
  rcases Nat.lt_trichotomy a.toNat b.toNat with h | h | h
  · simp [h]
  · have he : a = b := char_eq_of_toNat_eq h
    subst he
    simp [Nat.lt_irrefl]
  · have hne : a ≠ b := fun e => absurd (e ▸ h) (by omega)
    simp [Nat.lt_asymm h, h, hne]

theorem lexLe_total : ∀ a b, lexLe a b = true ∨ lexLe b a = true
  | [], _ => Or.inl rfl
  | _ :: _, [] => Or.inr rfl
  | a :: as, b :: bs => by
    rcases Nat.lt_trichotomy a.toNat b.toNat with h | h | h
    · exact Or.inl (lexLe_cons_iff.mpr (Or.inl h))
    · have he : a = b := char_eq_of_toNat_eq h
      subst he
      rcases lexLe_total as bs with h' | h'
      · exact Or.inl (lexLe_cons_iff.mpr (Or.inr ⟨rfl, h'⟩))
      · exact Or.inr (lexLe_cons_iff.mpr (Or.inr ⟨rfl, h'⟩))
    · exact Or.inr (lexLe_cons_iff.mpr (Or.inl h))

theorem lexLe_trans : ∀ a b c, lexLe a b = true → lexLe b c = true → lexLe a c = true
  | [], _, _, _, _ => rfl
  | _ :: _, [], _, hab, _ => nomatch hab
  | _ :: _, _ :: _, [], _, hbc => nomatch hbc
  | a :: as, b :: bs, c :: cs, hab, hbc => by
    rcases lexLe_cons_iff.mp hab with h1 | ⟨he1, h1⟩ <;>
      rcases lexLe_cons_iff.mp hbc with h2 | ⟨he2, h2⟩
    · exact lexLe_cons_iff.mpr (Or.inl (Nat.lt_trans h1 h2))
    · exact lexLe_cons_iff.mpr (Or.inl (he2 ▸ h1))
    · exact lexLe_cons_iff.mpr (Or.inl (he1 ▸ h2))
    · exact lexLe_cons_iff.mpr (Or.inr ⟨he1.trans he2, lexLe_trans as bs cs h1 h2⟩)

instance : IsTotal String StrLe := ⟨fun a b => lexLe_total a.data b.data⟩

instance : IsTrans String StrLe := ⟨fun a b c => lexLe_trans a.data b.data c.data⟩

theorem sortJS_sorted (l : List String) : (sortJS l).Sorted StrLe :=
  List.sorted_insertionSort StrLe l

theorem sortJS_perm (l : List String) : List.Perm (sortJS l) l :=
  List.perm_insertionSort StrLe l

theorem sortJS_nodup {l : List String} (h : l.Nodup) : (sortJS l).Nodup :=
  (sortJS_perm l).symm.nodup h

theorem sortJS_strict {l : List String} (h : l.Nodup) : (sortJS l).Pairwise StrLt :=
  ((sortJS_sorted l).and (sortJS_nodup h)).imp (fun h => h)

theorem mem_sortJS {l : List String} {a : String} : a ∈ sortJS l ↔ a ∈ l :=
  (sortJS_perm l).mem_iff

/-! ## Claim theorems -/

/-- C1: for a root containing `/src`, `/src/api` and `/node_modules/pkg`,
ignore patterns `["node_modules"]` and an absent (or empty) prior manifest,
`scan` returns `newDirs = ["/src","/src/api"]`, `missingDirs = []` and
`stats = {total:2, new:2, missing:0, documented:0}`; in particular the
ignored directory `/node_modules` itself is nowhere in the result. -/
theorem scan_c1_scenario :
    scanDirectories fsC1 "./" ["node_modules"] .absent = resC1 ∧
    scanDirectories fsC1 "./" ["node_modules"] (.json emptyDirsMap) = resC1 ∧
    "/node_modules" ∉ resC1.newDirs ∧ "/node_modules" ∉ resC1.unchangedDirs := by
  refine ⟨by decide, by decide, by decide, by decide⟩

/-- C3 (code bug): `validateMap` throws a `TypeError` — instead of returning
a structured result — on a manifest whose directories mapping holds a `null`
entry, because `typeof null === 'object'` passes the entry guard and the
subsequent `.purpose` read is on `null`. -/
theorem validateMap_throws_on_null_entry :
    validateMap alwaysDate c3map = .error "TypeError" := by rfl

/-- C7: `verify` on a manifest whose directories mapping has zero entries
returns exactly `{valid: true, missingReadmes: [], totalDirectories: 0,
documented: 0}` (and no error field), for every existence oracle, root path
and `generated` value. -/
theorem verify_empty_manifest (ex : String → Bool) (rootPath : String) (gen : JVal) :
    verifyDocumentation ex rootPath (.obj [("generated", gen), ("directories", .obj [])]) =
      .ok { valid := true, missingReadmes := [], totalDirectories := some 0,
            documented := some 0, error := none } := by
  rfl

/-- C10: `loadConfig` returns exactly the default configuration — without
throwing (the embedding is total: every throwing operation sits inside the
source's `try`) — when the config file exists but holds invalid JSON or
cannot be read, just as when it is missing. -/
theorem loadConfig_defaults_on_failure :
    loadConfig .invalidJson = DEFAULT_CONFIG ∧
    loadConfig .unreadable = DEFAULT_CONFIG ∧
    loadConfig .absent = DEFAULT_CONFIG :=
  ⟨rfl, rfl, rfl⟩

theorem objectKeysJ_nodup (v : JVal) : (objectKeysJ v).Nodup := by
  cases v <;> simp [objectKeysJ, List.nodup_dedup]

theorem existingDirsOf_nodup (f : DiskJson) : (existingDirsOf f).Nodup := by
  cases f <;> simp only [existingDirsOf, readExistingMap]
  · exact List.nodup_nil
  · exact List.nodup_nil
  · exact List.nodup_nil
  · split
    · exact objectKeysJ_nodup _
    · exact List.nodup_nil

theorem findAllDirectories_nodup (fsys : FileSys) (ignore : List String) :
    (findAllDirectories fsys ignore).Nodup :=
  sortJS_nodup (List.nodup_dedup _)

theorem findAllDirectories_sorted (fsys : FileSys) (ignore : List String) :
    (findAllDirectories fsys ignore).Sorted StrLe :=
  sortJS_sorted _

/-- C2: for every configuration — every directory tree, ignore list and
manifest file state — the scan result satisfies the partition invariants:
`newDirs` is disjoint from the manifest's key set, `missingDirs` is contained
in it, `unchangedDirs` is exactly the intersection of the current directory
set with it, and each of the three sequences is strictly sorted in the
lexicographic string order (ascending, hence duplicate-free). -/
theorem scan_partition_invariants (fsys : FileSys) (rootPath : String) (ignore : List String)
    (mapFile : DiskJson) :
    (∀ d ∈ (scanDirectories fsys rootPath ignore mapFile).newDirs, d ∉ existingDirsOf mapFile) ∧
    (∀ d ∈ (scanDirectories fsys rootPath ignore mapFile).missingDirs, d ∈ existingDirsOf mapFile) ∧
    (∀ d, d ∈ (scanDirectories fsys rootPath ignore mapFile).unchangedDirs ↔
      d ∈ findAllDirectories fsys ignore ∧ d ∈ existingDirsOf mapFile) ∧
    (scanDirectories fsys rootPath ignore mapFile).newDirs.Pairwise StrLt ∧
    (scanDirectories fsys rootPath ignore mapFile).missingDirs.Pairwise StrLt ∧
    (scanDirectories fsys rootPath ignore mapFile).unchangedDirs.Pairwise StrLt := by
  simp only [scanDirectories, compareDirectories]
  refine ⟨?_, ?_, ?_, ?_, ?_, ?_⟩
  · intro d hd
    rw [mem_sortJS, List.mem_filter] at hd
    simpa using hd.2
  · intro d hd
    rw [mem_sortJS, List.mem_filter] at hd
    exact hd.1
  · intro d
    rw [mem_sortJS, List.mem_filter]
    simp
  · exact sortJS_strict ((findAllDirectories_nodup fsys ignore).filter _)
  · exact sortJS_strict ((existingDirsOf_nodup mapFile).filter _)
  · exact sortJS_strict ((findAllDirectories_nodup fsys ignore).filter _)

/-- C6: when the manifest file exists but holds invalid JSON (read or parse
throws), the scan does not fail: it behaves exactly as with no manifest —
`missingDirs` is empty and `newDirs` is the whole current directory list. -/
theorem scan_corrupt_manifest (fsys : FileSys) (rootPath : String) (ignore : List String) :
    scanDirectories fsys rootPath ignore .invalidJson =
      scanDirectories fsys rootPath ignore .absent ∧
    (scanDirectories fsys rootPath ignore .invalidJson).missingDirs = [] ∧
    (scanDirectories fsys rootPath ignore .invalidJson).newDirs =
      findAllDirectories fsys ignore := by
  refine ⟨rfl, rfl, ?_⟩
  have h : List.filter (fun d => !(existingDirsOf DiskJson.invalidJson).contains d)
      (findAllDirectories fsys ignore) = findAllDirectories fsys ignore :=
    List.filter_eq_self.mpr (fun a _ => rfl)
  show sortJS (List.filter _ (findAllDirectories fsys ignore)) = _
  rw [h]
  exact (findAllDirectories_sorted fsys ignore).insertionSort_eq

theorem upwardChain_concat (l : List String) (a : String) :
    upwardChain (l ++ [a]) = (l ++ [a]) :: upwardChain l := by
  simp only [upwardChain, List.length_append, List.length_cons, List.length_nil, Nat.zero_add]
  rw [List.range_succ_eq_map]
  simp only [List.map_cons, Nat.sub_zero, List.map_map]
  congr 1
  · exact List.take_of_length_le (by simp)
  · apply List.map_congr_left
    intro k hk
    rw [List.mem_range] at hk
    simp only [Function.comp]
    rw [Nat.succ_sub_succ, List.take_append_eq_append_take,
      Nat.sub_eq_zero_of_le (Nat.sub_le _ _), List.take_zero, List.append_nil]

theorem findConfigAux_eq_find (ex : List String → Bool) :
    ∀ r : List String,
      findConfigAux ex r =
        ((upwardChain r.reverse).find? (fun d => ex (d ++ [configFilename]))).map
          (fun d => d ++ [configFilename])
  | [] => by simp [findConfigAux, upwardChain]
  | d :: ds => by
    rw [findConfigAux, List.reverse_cons, upwardChain_concat, List.find?_cons]
    simp only [List.append_assoc, List.cons_append, List.nil_append]
    by_cases h : ex (ds.reverse ++ [d, configFilename])
    · simp [h]
    · simp only [h, Bool.false_eq_true, if_false]
      exact findConfigAux_eq_find ex ds

/-- C8 (counterexample): when the config file sits only in the filesystem
root, `findConfig` started one level below returns `null` even though the
root — which the claim includes in the searched chain — contains it: the
`while (currentDir !== root)` loop exits before ever examining the root. -/
theorem findConfig_misses_root :
    findConfig rootOnlyEx ["a"] = none ∧ rootOnlyEx ([] ++ [configFilename]) = true :=
  ⟨rfl, rfl⟩

/-- C8 (amended): `findConfig` returns the config path of the nearest
directory among the starting directory and its ancestors, the filesystem
root excluded — `upwardChain` lists exactly the nonempty prefixes of the
start, deepest first — and an absent result exactly when no directory on
that root-free chain contains the config file. -/
theorem findConfig_eq_find_on_chain (ex : List String → Bool) (startDir : List String) :
    findConfig ex startDir =
      ((upwardChain startDir).find? (fun d => ex (d ++ [configFilename]))).map
        (fun d => d ++ [configFilename]) := by
  rw [findConfig, findConfigAux_eq_find, List.reverse_reverse]

/-- C9: `createDirectoryEntry` treats an explicitly supplied falsy field
exactly like an absent one: whenever the supplied value of a schema field is
falsy, the returned entry holds that field's default — so `complexity: 0`
yields `1`, and an empty `lastUpdated` is replaced by the clock value. -/
theorem createDirectoryEntry_falsy_default (now : String) (info : List (String × JVal))
    (k : String) (hk : k ∈ entryFieldNames)
    (hf : truthy (lookupField info k) = false) :
    lookupField (createDirectoryEntry now info) k = entryDefaultVal now k := by
  fin_cases hk <;>
    simp [createDirectoryEntry, lookupField, entryDefaultVal, jsOr, hf]

/-- Witness for C9: `{complexity: 0}` comes back with `complexity = 1`, and
`{lastUpdated: ""}` with the clock value. -/
theorem createDirectoryEntry_falsy_default_witness :
    (lookupField (createDirectoryEntry nowT [("complexity", JVal.num 0)]) "complexity" =
        entryDefaultVal nowT "complexity" ∧ entryDefaultVal nowT "complexity" = JVal.num 1) ∧
    (lookupField (createDirectoryEntry nowT [("lastUpdated", JVal.str "")]) "lastUpdated" =
        entryDefaultVal nowT "lastUpdated" ∧ entryDefaultVal nowT "lastUpdated" = JVal.str nowT) :=
  ⟨⟨createDirectoryEntry_falsy_default nowT [("complexity", JVal.num 0)] "complexity"
      (by decide) (by decide), rfl⟩,
   ⟨createDirectoryEntry_falsy_default nowT [("lastUpdated", JVal.str "")] "lastUpdated"
      (by decide) (by decide), rfl⟩⟩

/-! ## Error-message disjointness (for counting complexity errors) -/

theorem string_eq_of_data_eq {a b : String} (h : a.data = b.data) : a = b := by
  cases a; cases b; simp_all

theorem string_append_cancel {s a b : String} (h : s ++ a = s ++ b) : a = b := by
  apply string_eq_of_data_eq
  have hd := congrArg String.data h
  rw [String.data_append, String.data_append] at hd
  exact List.append_cancel_left hd

theorem entry_msg_ne (p : String) {a b : String} (hne : a ≠ b) :
    entryPfx p ++ a ≠ entryPfx p ++ b :=
  fun h => hne (string_append_cancel h)

theorem isPrefixOf_append_self (l t : List Char) : l.isPrefixOf (l ++ t) = true := by
  induction l with
  | nil => simp
  | cons c cs ih => simp [List.isPrefixOf, ih]

theorem append_ne_of_not_pref {a c : String} (h : a.data.isPrefixOf c.data = false)
    (x : String) : a ++ x ≠ c := by
  intro he
  have h3 := congrArg String.data he
  rw [String.data_append] at h3
  rw [← h3, isPrefixOf_append_self] at h
  simp at h

theorem keyFile_msg_ne (p : String) (idx : Nat) (tail : String) :
    entryPfx p ++ " keyFiles[" ++ toString idx ++ tail ≠ complexityError p := by
  rw [complexityError, String.append_assoc, String.append_assoc]
  intro h
  exact append_ne_of_not_pref (by decide) (toString idx ++ tail) (string_append_cancel h)

theorem arrfield_msg_ne (p : String) {f t : String}
    (h : (" " ++ (f ++ t) : String) ≠ " complexity must be a number between 1 and 5") :
    entryPfx p ++ " " ++ f ++ t ≠ complexityError p := by
  rw [String.append_assoc, String.append_assoc]
  exact entry_msg_ne p h

theorem count_two_ifs (c m1 m2 : String) (b1 b2 : Bool) (h1 : m1 ≠ c) (h2 : m2 ≠ c) :
    ((if b1 then ([] : List String) else [m1]) ++ (if b2 then [] else [m2])).count c = 0 := by
  cases b1 <;> cases b2 <;> simp [List.count_cons, h1, h2]

theorem keyFileErrs_count (p : String) (idx : Nat) (kf : JVal) (msgs : List String)
    (h : keyFileErrs (entryPfx p) idx kf = .ok msgs) :
    msgs.count (complexityError p) = 0 := by
  have h1 := keyFile_msg_ne p idx "] missing 'file' field"
  have h2 := keyFile_msg_ne p idx "] missing 'description' field"
  cases kf with
  | null => exact (nomatch h)
  | undef => exact (nomatch h)
  | bool b =>
    obtain rfl := Except.ok.inj h
    exact count_two_ifs _ _ _ _ _ h1 h2
  | num n =>
    obtain rfl := Except.ok.inj h
    exact count_two_ifs _ _ _ _ _ h1 h2
  | str s =>
    obtain rfl := Except.ok.inj h
    exact count_two_ifs _ _ _ _ _ h1 h2
  | arr xs =>
    obtain rfl := Except.ok.inj h
    exact count_two_ifs _ _ _ _ _ h1 h2
  | obj ofs =>
    obtain rfl := Except.ok.inj h
    exact count_two_ifs _ _ _ _ _ h1 h2

theorem mapM_keyFileErrs_count (p : String) :
    ∀ (l : List (Nat × JVal)) (ess : List (List String)),
      l.mapM (fun q => keyFileErrs (entryPfx p) q.1 q.2) = .ok ess →
      ess.flatten.count (complexityError p) = 0
  | [], ess, h => by
    rw [List.mapM_nil] at h
    obtain rfl := Except.ok.inj h
    rfl
  | q :: rest, ess, h => by
    rw [List.mapM_cons] at h
    cases hq : keyFileErrs (entryPfx p) q.1 q.2 with
    | error e => rw [hq] at h; exact (nomatch h)
    | ok m =>
      rw [hq] at h
      cases hr : rest.mapM (fun q => keyFileErrs (entryPfx p) q.1 q.2) with
      | error e => rw [hr] at h; exact (nomatch h)
      | ok ms =>
        rw [hr] at h
        obtain rfl := Except.ok.inj h
        rw [List.flatten_cons, List.count_append,
          keyFileErrs_count p q.1 q.2 m hq,
          mapM_keyFileErrs_count p rest ms hr]

theorem validateDirectoryEntry_obj (p : String) (fs : List (String × JVal)) :
    validateDirectoryEntry p (.obj fs) =
      (if isUndef (lookupField fs "keyFiles") then
        Except.ok (
            (if isUndef (lookupField fs "purpose")
              then [entryPfx p ++ " missing 'purpose' field"] else []) ++
            (if isUndef (lookupField fs "complexity") then []
              else match lookupField fs "complexity" with
                | .num n => if n < 1 || n > 5 then [complexityError p] else []
                | _ => [complexityError p]) ++
            (if isUndef (lookupField fs "changeFrequency") then []
              else if (match lookupField fs "changeFrequency" with
                  | .str s => validFrequencies.contains s
                  | _ => false) then []
                else [entryPfx p ++ " changeFrequency must be one of: Stable, Moderate, Frequently Modified, Unknown"]) ++
            ((if !isUndef (lookupField fs "entryPoints") && !isArr (lookupField fs "entryPoints")
                then [entryPfx p ++ " " ++ "entryPoints" ++ " must be an array"] else []) ++
              (if !isUndef (lookupField fs "internalDeps") && !isArr (lookupField fs "internalDeps")
                then [entryPfx p ++ " " ++ "internalDeps" ++ " must be an array"] else []) ++
              (if !isUndef (lookupField fs "externalDeps") && !isArr (lookupField fs "externalDeps")
                then [entryPfx p ++ " " ++ "externalDeps" ++ " must be an array"] else []) ++
              (if !isUndef (lookupField fs "subdirectories") && !isArr (lookupField fs "subdirectories")
                then [entryPfx p ++ " " ++ "subdirectories" ++ " must be an array"] else [])) ++
            ([] : List String))
      else
        match lookupField fs "keyFiles" with
        | .arr kfs =>
          Except.bind (kfs.enum.mapM (fun q => keyFileErrs (entryPfx p) q.1 q.2))
            (fun ess => Except.ok (
            (if isUndef (lookupField fs "purpose")
              then [entryPfx p ++ " missing 'purpose' field"] else []) ++
            (if isUndef (lookupField fs "complexity") then []
              else match lookupField fs "complexity" with
                | .num n => if n < 1 || n > 5 then [complexityError p] else []
                | _ => [complexityError p]) ++
            (if isUndef (lookupField fs "changeFrequency") then []
              else if (match lookupField fs "changeFrequency" with
                  | .str s => validFrequencies.contains s
                  | _ => false) then []
                else [entryPfx p ++ " changeFrequency must be one of: Stable, Moderate, Frequently Modified, Unknown"]) ++
            ((if !isUndef (lookupField fs "entryPoints") && !isArr (lookupField fs "entryPoints")
                then [entryPfx p ++ " " ++ "entryPoints" ++ " must be an array"] else []) ++
              (if !isUndef (lookupField fs "internalDeps") && !isArr (lookupField fs "internalDeps")
                then [entryPfx p ++ " " ++ "internalDeps" ++ " must be an array"] else []) ++
              (if !isUndef (lookupField fs "externalDeps") && !isArr (lookupField fs "externalDeps")
                then [entryPfx p ++ " " ++ "externalDeps" ++ " must be an array"] else []) ++
              (if !isUndef (lookupField fs "subdirectories") && !isArr (lookupField fs "subdirectories")
                then [entryPfx p ++ " " ++ "subdirectories" ++ " must be an array"] else [])) ++
            ess.flatten))
        | _ =>
          Except.ok (
            (if isUndef (lookupField fs "purpose")
              then [entryPfx p ++ " missing 'purpose' field"] else []) ++
            (if isUndef (lookupField fs "complexity") then []
              else match lookupField fs "complexity" with
                | .num n => if n < 1 || n > 5 then [complexityError p] else []
                | _ => [complexityError p]) ++
            (if isUndef (lookupField fs "changeFrequency") then []
              else if (match lookupField fs "changeFrequency" with
                  | .str s => validFrequencies.contains s
                  | _ => false) then []
                else [entryPfx p ++ " changeFrequency must be one of: Stable, Moderate, Frequently Modified, Unknown"]) ++
            ((if !isUndef (lookupField fs "entryPoints") && !isArr (lookupField fs "entryPoints")
                then [entryPfx p ++ " " ++ "entryPoints" ++ " must be an array"] else []) ++
              (if !isUndef (lookupField fs "internalDeps") && !isArr (lookupField fs "internalDeps")
                then [entryPfx p ++ " " ++ "internalDeps" ++ " must be an array"] else []) ++
              (if !isUndef (lookupField fs "externalDeps") && !isArr (lookupField fs "externalDeps")
                then [entryPfx p ++ " " ++ "externalDeps" ++ " must be an array"] else []) ++
              (if !isUndef (lookupField fs "subdirectories") && !isArr (lookupField fs "subdirectories")
                then [entryPfx p ++ " " ++ "subdirectories" ++ " must be an array"] else [])) ++
            [entryPfx p ++ " keyFiles must be an array"])) := by
  rfl

theorem count_ite_zero {c m : String} (b : Bool) (h : m ≠ c) :
    ((if b then [m] else []) : List String).count c = 0 := by
  cases b <;> simp [List.count_cons, h]

theorem count_ite2_zero {c m : String} (b1 b2 : Bool) (h : m ≠ c) :
    ((if b1 then [] else if b2 then [] else [m]) : List String).count c = 0 := by
  cases b1 <;> cases b2 <;> simp [List.count_cons, h]

theorem purpose_msg_ne (p : String) :
    (entryPfx p ++ " missing 'purpose' field") ≠ complexityError p :=
  entry_msg_ne p (by decide)

theorem freq_msg_ne (p : String) :
    (entryPfx p ++ " changeFrequency must be one of: Stable, Moderate, Frequently Modified, Unknown") ≠
      complexityError p :=
  entry_msg_ne p (by decide)

theorem object_msg_ne (p : String) :
    (entryPfx p ++ " must be an object") ≠ complexityError p :=
  entry_msg_ne p (by decide)

theorem kfarr_msg_ne (p : String) :
    (entryPfx p ++ " keyFiles must be an array") ≠ complexityError p :=
  entry_msg_ne p (by decide)

theorem count_entry_core (p : String) (fs : List (String × JVal)) :
    ((if isUndef (lookupField fs "purpose")
        then [entryPfx p ++ " missing 'purpose' field"] else []) ++
      (if isUndef (lookupField fs "complexity") then []
        else match lookupField fs "complexity" with
          | .num n => if n < 1 || n > 5 then [complexityError p] else []
          | _ => [complexityError p]) ++
      (if isUndef (lookupField fs "changeFrequency") then []
        else if (match lookupField fs "changeFrequency" with
            | .str s => validFrequencies.contains s
            | _ => false) then []
          else [entryPfx p ++ " changeFrequency must be one of: Stable, Moderate, Frequently Modified, Unknown"]) ++
      ((if !isUndef (lookupField fs "entryPoints") && !isArr (lookupField fs "entryPoints")
          then [entryPfx p ++ " " ++ "entryPoints" ++ " must be an array"] else []) ++
        (if !isUndef (lookupField fs "internalDeps") && !isArr (lookupField fs "internalDeps")
          then [entryPfx p ++ " " ++ "internalDeps" ++ " must be an array"] else []) ++
        (if !isUndef (lookupField fs "externalDeps") && !isArr (lookupField fs "externalDeps")
          then [entryPfx p ++ " " ++ "externalDeps" ++ " must be an array"] else []) ++
        (if !isUndef (lookupField fs "subdirectories") && !isArr (lookupField fs "subdirectories")
          then [entryPfx p ++ " " ++ "subdirectories" ++ " must be an array"] else []))).count
      (complexityError p) =
      if badComplexity (lookupField fs "complexity") then 1 else 0 := by
  simp only [List.count_append]
  rw [count_ite_zero _ (purpose_msg_ne p),
    count_ite2_zero _ _ (freq_msg_ne p),
    count_ite_zero _ (arrfield_msg_ne p (by decide)),
    count_ite_zero _ (arrfield_msg_ne p (by decide)),
    count_ite_zero _ (arrfield_msg_ne p (by decide)),
    count_ite_zero _ (arrfield_msg_ne p (by decide))]
  simp only [Nat.zero_add, Nat.add_zero]
  rcases lookupField fs "complexity" with _ | _ | b | n | s | xs | ofs
  · simp [isUndef, badComplexity, List.count_cons]
  · simp [isUndef, badComplexity]
  · simp [isUndef, badComplexity, List.count_cons]
  · simp only [isUndef, badComplexity, Bool.false_eq_true, if_false]
    split <;> simp_all [List.count_cons]
  · simp [isUndef, badComplexity, List.count_cons]
  · simp [isUndef, badComplexity, List.count_cons]
  · simp [isUndef, badComplexity, List.count_cons]

theorem except_bind_ok {a b : Type} {x : Except String a} {f : a → Except String b}
    {v : b} (h : Except.bind x f = Except.ok v) :
    ∃ w, x = Except.ok w ∧ f w = Except.ok v := by
  cases x with
  | error e => exact (nomatch h)
  | ok w => exact ⟨w, rfl, h⟩

/-- C5: for every entry the per-entry validator completes on, the error list
holds the complexity error exactly once when the entry's `complexity` value
is present and fails the range/type check (so for 0, 6, or any present
non-numeric value), and does not hold it at all when `complexity` is a
number in range (1 and 5 included) or absent. -/
theorem validate_complexity_error_count (p : String) (e : JVal) (errs : List String)
    (h : validateDirectoryEntry p e = .ok errs) :
    errs.count (complexityError p) =
      if badComplexity (propOf e "complexity") then 1 else 0 := by
  cases e with
  | null => exact (nomatch h)
  | undef =>
    obtain rfl := Except.ok.inj h
    simp [List.count_cons, object_msg_ne p, propOf, badComplexity]
  | bool b =>
    obtain rfl := Except.ok.inj h
    simp [List.count_cons, object_msg_ne p, propOf, badComplexity]
  | num n =>
    obtain rfl := Except.ok.inj h
    simp [List.count_cons, object_msg_ne p, propOf, badComplexity]
  | str s =>
    obtain rfl := Except.ok.inj h
    simp [List.count_cons, object_msg_ne p, propOf, badComplexity]
  | arr xs =>
    obtain rfl := Except.ok.inj h
    simp [isUndef, isArr, List.count_cons, purpose_msg_ne p, propOf, badComplexity]
  | obj fs =>
    rw [validateDirectoryEntry_obj] at h
    show _ = if badComplexity (lookupField fs "complexity") then 1 else 0
    rcases hkv : lookupField fs "keyFiles" with _ | _ | kb | kn | ks | kfs | kfields
    · rw [hkv] at h
      rw [if_neg (show ¬ isUndef JVal.null = true from by simp [isUndef])] at h
      obtain rfl := Except.ok.inj h
      rw [List.count_append, count_entry_core]
      simp [List.count_cons, kfarr_msg_ne p]
    · rw [hkv] at h
      rw [if_pos (show isUndef JVal.undef = true from rfl)] at h
      obtain rfl := Except.ok.inj h
      rw [List.count_append, count_entry_core]
      simp
    · rw [hkv] at h
      rw [if_neg (show ¬ isUndef (JVal.bool kb) = true from by simp [isUndef])] at h
      obtain rfl := Except.ok.inj h
      rw [List.count_append, count_entry_core]
      simp [List.count_cons, kfarr_msg_ne p]
    · rw [hkv] at h
      rw [if_neg (show ¬ isUndef (JVal.num kn) = true from by simp [isUndef])] at h
      obtain rfl := Except.ok.inj h
      rw [List.count_append, count_entry_core]
      simp [List.count_cons, kfarr_msg_ne p]
    · rw [hkv] at h
      rw [if_neg (show ¬ isUndef (JVal.str ks) = true from by simp [isUndef])] at h
      obtain rfl := Except.ok.inj h
      rw [List.count_append, count_entry_core]
      simp [List.count_cons, kfarr_msg_ne p]
    · rw [hkv] at h
      rw [if_neg (show ¬ isUndef (JVal.arr kfs) = true from by simp [isUndef])] at h
      obtain ⟨ess, hm, h2⟩ := except_bind_ok h
      obtain rfl := Except.ok.inj h2
      rw [List.count_append, count_entry_core, mapM_keyFileErrs_count p kfs.enum ess hm,
        Nat.add_zero]
    · rw [hkv] at h
      rw [if_neg (show ¬ isUndef (JVal.obj kfields) = true from by simp [isUndef])] at h
      obtain rfl := Except.ok.inj h
      rw [List.count_append, count_entry_core]
      simp [List.count_cons, kfarr_msg_ne p]

/-- Witness for C5: an entry with `complexity: 6` yields exactly the one
complexity error, and with `complexity: 5` none. -/
theorem validate_complexity_error_count_witness :
    ([complexityError "/a"].count (complexityError "/a") =
      if badComplexity (propOf (.obj [("purpose", .str "x"), ("complexity", JVal.num 6)]) "complexity")
        then 1 else 0) ∧
    (([] : List String).count (complexityError "/a") =
      if badComplexity (propOf (.obj [("purpose", .str "x"), ("complexity", JVal.num 5)]) "complexity")
        then 1 else 0) :=
  ⟨validate_complexity_error_count "/a" (.obj [("purpose", .str "x"), ("complexity", JVal.num 6)])
      [complexityError "/a"] (by rfl),
   validate_complexity_error_count "/a" (.obj [("purpose", .str "x"), ("complexity", JVal.num 5)])
      [] (by rfl)⟩

/-- C4 (counterexample): the round-trip claim fails for arbitrary partials —
`updateManifest` spreads the partial over the defaults without any check, so
`{complexity: 7}` produces a manifest that serializes, parses and then
validates as `valid: false` (with exactly the complexity error). -/
theorem roundtrip_invalid_counterexample :
    Except.bind (updateMap nowT .null "/a" (.obj [("complexity", JVal.num 7)]))
      (fun m => validateMap alwaysDate (jsonRT m)) =
      .ok ⟨false, [complexityError "/a"]⟩ := by
  rfl

/-! ## Association-list lemmas for the round-trip proof -/

theorem lookupField_append (l1 l2 : List (String × JVal)) (k : String) :
    lookupField (l1 ++ l2) k =
      if hasKey l1 k then lookupField l1 k else lookupField l2 k := by
  induction l1 with
  | nil => simp [hasKey, lookupField]
  | cons kv rest ih =>
    by_cases hk : kv.1 == k
    · simp [lookupField, hasKey, List.any_cons, hk]
    · simp only [List.cons_append, lookupField, hasKey, List.any_cons, hk, Bool.false_or,
        if_false, Bool.false_eq_true]
      exact ih

theorem lookup_eq_undef_of_not_hasKey {l : List (String × JVal)} {k : String}
    (h : hasKey l k = false) : lookupField l k = .undef := by
  induction l with
  | nil => rfl
  | cons kv rest ih =>
    simp only [hasKey, List.any_cons, Bool.or_eq_false_iff] at h
    simp only [lookupField, h.1, Bool.false_eq_true, if_false]
    exact ih (by simp [hasKey, h.2])

theorem lookup_mem {l : List (String × JVal)} {k : String} (h : hasKey l k = true) :
    (k, lookupField l k) ∈ l := by
  induction l with
  | nil => simp [hasKey] at h
  | cons kv rest ih =>
    by_cases hk : kv.1 == k
    · have : kv.1 = k := by simpa using hk
      subst this
      simp [lookupField]
    · simp only [hasKey, List.any_cons, hk, Bool.false_or] at h
      simp only [lookupField, hk, Bool.false_eq_true, if_false]
      exact List.mem_cons_of_mem _ (ih h)

theorem hasKey_map_fstpreserving (a : List (String × JVal))
    (g : String × JVal → JVal) (k : String) :
    hasKey (a.map (fun kv => (kv.1, g kv))) k = hasKey a k := by
  induction a with
  | nil => rfl
  | cons kv rest ih => simp [hasKey, List.any_cons] at ih ⊢; rw [ih]

theorem lookup_map_spread (b : List (String × JVal)) :
    ∀ (a : List (String × JVal)) (k : String), hasKey a k = true →
      lookupField (a.map (fun kv => (kv.1, if hasKey b kv.1 then lookupField b kv.1 else kv.2))) k =
        if hasKey b k then lookupField b k else lookupField a k
  | [], k, h => by simp [hasKey] at h
  | kv :: rest, k, h => by
    by_cases hk : kv.1 == k
    · have he : kv.1 = k := by simpa using hk
      subst he
      simp [lookupField]
    · simp only [hasKey, List.any_cons, hk, Bool.false_or] at h
      simp only [List.map_cons, lookupField, hk, Bool.false_eq_true, if_false]
      exact lookup_map_spread b rest k h

theorem lookupField_spreadMerge (a b : List (String × JVal)) (k : String)
    (ha : hasKey a k = true) :
    lookupField (spreadMerge a b) k =
      if hasKey b k then lookupField b k else lookupField a k := by
  rw [spreadMerge, lookupField_append]
  rw [hasKey_map_fstpreserving a (fun kv => if hasKey b kv.1 then lookupField b kv.1 else kv.2) k]
  rw [if_pos ha]
  exact lookup_map_spread b a k ha

theorem lookup_map_replace (fields : List (String × JVal)) (k : String) (v : JVal) :
    lookupField (fields.map (fun kv => if kv.1 == k then (kv.1, v) else kv)) k =
      if hasKey fields k then v else .undef := by
  induction fields with
  | nil => rfl
  | cons kv rest ih =>
    obtain ⟨k1, v1⟩ := kv
    rw [List.map_cons]
    by_cases hk : (k1 == k) = true
    · rw [show (if (k1, v1).1 == k then ((k1, v1).1, v) else (k1, v1)) = (k1, v) from by simp [hk]]
      show (if (k1 == k) = true then v else _) = _
      rw [if_pos hk, if_pos (show hasKey ((k1, v1) :: rest) k = true from by simp [hasKey, hk])]
    · rw [show (if (k1, v1).1 == k then ((k1, v1).1, v) else (k1, v1)) = (k1, v1) from by simp [hk]]
      show (if (k1 == k) = true then v1 else
        lookupField (rest.map (fun kv => if kv.1 == k then (kv.1, v) else kv)) k) = _
      rw [if_neg hk, ih,
        show hasKey ((k1, v1) :: rest) k = hasKey rest k from by simp [hasKey, List.any_cons, hk]]

theorem lookup_map_replace_ne (fields : List (String × JVal)) (k : String) (v : JVal)
    (k' : String) (hne : (k == k') = false) :
    lookupField (fields.map (fun kv => if kv.1 == k then (kv.1, v) else kv)) k' =
      lookupField fields k' := by
  induction fields with
  | nil => rfl
  | cons kv rest ih =>
    obtain ⟨k1, v1⟩ := kv
    rw [List.map_cons]
    by_cases hk : (k1 == k) = true
    · have he : k1 = k := by simpa using hk
      rw [show (if (k1, v1).1 == k then ((k1, v1).1, v) else (k1, v1)) = (k1, v) from by simp [hk]]
      show (if (k1 == k') = true then v else _) = _
      have hne1 : (k1 == k') = false := by rw [he]; exact hne
      rw [if_neg (by simp [hne1]), ih]
      show _ = (if (k1 == k') = true then v1 else lookupField rest k')
      rw [if_neg (by simp [hne1])]
    · rw [show (if (k1, v1).1 == k then ((k1, v1).1, v) else (k1, v1)) = (k1, v1) from by simp [hk]]
      show (if (k1 == k') = true then v1 else _) = (if (k1 == k') = true then v1 else _)
      by_cases hk' : (k1 == k') = true
      · rw [if_pos hk', if_pos hk']
      · rw [if_neg hk', if_neg hk', ih]

theorem lookupField_setField_self (fields : List (String × JVal)) (k : String) (v : JVal) :
    lookupField (setField fields k v) k = v := by
  rw [setField]
  split
  · next h => rw [lookup_map_replace, if_pos h]
  · next h =>
    rw [lookupField_append, if_neg (by simp_all)]
    show (if (k == k) = true then v else _) = v
    rw [if_pos (by simp)]

theorem lookupField_setField_ne (fields : List (String × JVal)) (k : String) (v : JVal)
    (k' : String) (hne : (k == k') = false) :
    lookupField (setField fields k v) k' = lookupField fields k' := by
  rw [setField]
  split
  · exact lookup_map_replace_ne fields k v k' hne
  · rw [lookupField_append]
    by_cases h2 : hasKey fields k' = true
    · rw [if_pos h2]
    · rw [if_neg (by simp [h2])]
      have h3 : lookupField fields k' = .undef :=
        lookup_eq_undef_of_not_hasKey (by simp_all)
      rw [h3]
      show (if (k == k') = true then v else _) = _
      rw [if_neg (by simp [hne])]
      rfl

theorem hasKey_iff_mem (l : List (String × JVal)) (k : String) :
    hasKey l k = true ↔ k ∈ l.map Prod.fst := by
  simp only [hasKey, List.any_eq_true, List.mem_map, beq_iff_eq]

theorem setField_keys (fields : List (String × JVal)) (k : String) (v : JVal)
    (h : hasKey fields k = true) :
    (setField fields k v).map Prod.fst = fields.map Prod.fst := by
  rw [setField, if_pos h, List.map_map]
  apply List.map_congr_left
  intro kv _
  show (if (kv.1 == k) = true then (kv.1, v) else kv).1 = kv.1
  split <;> rfl

theorem spreadMerge_keys_nodup (a b : List (String × JVal))
    (ha : (a.map Prod.fst).Nodup) (hb : (b.map Prod.fst).Nodup) :
    ((spreadMerge a b).map Prod.fst).Nodup := by
  rw [spreadMerge, List.map_append]
  have hmap : ((a.map fun kv => (kv.1, if hasKey b kv.1 then lookupField b kv.1 else kv.2)).map
      Prod.fst) = a.map Prod.fst := by
    rw [List.map_map]
    apply List.map_congr_left
    intro kv _
    rfl
  rw [hmap]
  apply List.Nodup.append ha
  · exact hb.sublist ((b.filter_sublist).map Prod.fst)
  · intro x hx1 hx2
    rw [List.mem_map] at hx2
    obtain ⟨kv, hkv, hfst⟩ := hx2
    rw [List.mem_filter] at hkv
    have : hasKey a x = true := (hasKey_iff_mem a x).mpr hx1
    rw [← hfst] at this
    simp [this] at hkv

theorem jsonRT_ne_undef (v : JVal) : isUndef (jsonRT v) = false := by
  cases v <;> rfl

theorem truthy_jsonRT {v : JVal} (h : truthy v = true) : truthy (jsonRT v) = true := by
  cases v <;> simp_all [truthy, jsonRT]

theorem hasKey_jsonRTFields_false {l : List (String × JVal)} {k : String}
    (h : hasKey l k = false) : hasKey (jsonRTFields l) k = false := by
  induction l with
  | nil => rfl
  | cons kv rest ih =>
    obtain ⟨k1, v1⟩ := kv
    simp only [hasKey, List.any_cons, Bool.or_eq_false_iff] at h
    rw [jsonRTFields]
    split
    · exact ih (by simp [hasKey, h.2])
    · have hr := ih (by simp [hasKey, h.2])
      simp only [hasKey, List.any_cons] at hr ⊢
      simp [h.1, hr]

theorem lookupField_jsonRTFields {l : List (String × JVal)}
    (hnd : (l.map Prod.fst).Nodup) (k : String) :
    lookupField (jsonRTFields l) k =
      if isUndef (lookupField l k) then .undef else jsonRT (lookupField l k) := by
  induction l with
  | nil => simp [jsonRTFields, lookupField, isUndef]
  | cons kv rest ih =>
    obtain ⟨k1, v1⟩ := kv
    rw [List.map_cons, List.nodup_cons] at hnd
    rw [jsonRTFields]
    by_cases hk : (k1 == k) = true
    · have he : k1 = k := by simpa using hk
      have hlook : lookupField ((k1, v1) :: rest) k = v1 := by
        show (if (k1 == k) = true then v1 else _) = v1
        rw [if_pos hk]
      rw [hlook]
      have hnr : hasKey rest k = false := by
        rw [← Bool.not_eq_true]
        intro hkk
        exact hnd.1 (he ▸ (hasKey_iff_mem rest k).mp hkk)
      split
      · next hundef =>
        rw [lookup_eq_undef_of_not_hasKey (hasKey_jsonRTFields_false hnr)]
      · next hndef =>
        have h2 : lookupField ((k1, jsonRT v1) :: jsonRTFields rest) k = jsonRT v1 := by
          show (if (k1 == k) = true then _ else _) = _
          rw [if_pos hk]
        rw [h2]
    · have hlook : lookupField ((k1, v1) :: rest) k = lookupField rest k := by
        show (if (k1 == k) = true then v1 else _) = _
        rw [if_neg hk]
      rw [hlook]
      split
      · exact ih hnd.2
      · have h2 : lookupField ((k1, jsonRT v1) :: jsonRTFields rest) k =
            lookupField (jsonRTFields rest) k := by
          show (if (k1 == k) = true then _ else _) = _
          rw [if_neg hk]
        rw [h2]
        exact ih hnd.2

theorem lookupField_jsonRTFields_nu {l : List (String × JVal)} {k : String}
    (h : isUndef (lookupField l k) = false) :
    lookupField (jsonRTFields l) k = jsonRT (lookupField l k) := by
  induction l with
  | nil => simp [lookupField, isUndef] at h
  | cons kv rest ih =>
    obtain ⟨k1, v1⟩ := kv
    rw [jsonRTFields]
    by_cases hk : (k1 == k) = true
    · have hl : lookupField ((k1, v1) :: rest) k = v1 := by
        show (if (k1 == k) = true then v1 else _) = v1
        rw [if_pos hk]
      rw [hl] at h ⊢
      split
      · next hu => rw [hu] at h; exact absurd h (by simp)
      · show (if (k1 == k) = true then jsonRT v1 else _) = _
        rw [if_pos hk]
    · have hl : lookupField ((k1, v1) :: rest) k = lookupField rest k := by
        show (if (k1 == k) = true then v1 else _) = _
        rw [if_neg hk]
      rw [hl] at h ⊢
      split
      · exact ih h
      · have h2 : lookupField ((k1, jsonRT v1) :: jsonRTFields rest) k =
            lookupField (jsonRTFields rest) k := by
          show (if (k1 == k) = true then _ else _) = _
          rw [if_neg hk]
        rw [h2]
        exact ih h

theorem jsonRTFields_map {l : List (String × JVal)} (h : ∀ kv ∈ l, isUndef kv.2 = false) :
    jsonRTFields l = l.map (fun kv => (kv.1, jsonRT kv.2)) := by
  induction l with
  | nil => rfl
  | cons kv rest ih =>
    obtain ⟨k1, v1⟩ := kv
    rw [jsonRTFields, if_neg (by simp [h (k1, v1) (List.mem_cons_self _ _)]),
      List.map_cons, ih (fun kv hkv => h kv (List.mem_cons_of_mem _ hkv))]

theorem jsonRTList_eq_map (l : List JVal) : jsonRTList l = l.map jsonRT := by
  induction l with
  | nil => rfl
  | cons x rest ih => rw [jsonRTList, List.map_cons, ih]

theorem truthy_not_undef {v : JVal} (h : truthy v = true) : isUndef v = false := by
  cases v <;> simp_all [truthy, isUndef]

theorem keyFileErrs_good (pfx : String) (idx : Nat) {kf : JVal}
    (h : goodKeyFile kf = true) :
    keyFileErrs pfx idx (jsonRT kf) = .ok [] := by
  cases kf with
  | obj kff =>
    simp only [goodKeyFile, Bool.and_eq_true] at h
    show Except.ok
      ((if truthy (lookupField (jsonRTFields kff) "file") then []
        else [pfx ++ " keyFiles[" ++ toString idx ++ "] missing 'file' field"]) ++
       (if truthy (lookupField (jsonRTFields kff) "description") then []
        else [pfx ++ " keyFiles[" ++ toString idx ++ "] missing 'description' field"])) = Except.ok []
    rw [lookupField_jsonRTFields_nu (truthy_not_undef h.1),
      lookupField_jsonRTFields_nu (truthy_not_undef h.2),
      if_pos (truthy_jsonRT h.1), if_pos (truthy_jsonRT h.2)]
    rfl
  | null => simp [goodKeyFile] at h
  | undef => simp [goodKeyFile] at h
  | bool b => simp [goodKeyFile] at h
  | num n => simp [goodKeyFile] at h
  | str s => simp [goodKeyFile] at h
  | arr xs => simp [goodKeyFile] at h

theorem mapM_kf_ok (pfx : String) :
    ∀ (l : List (Nat × JVal)), (∀ q ∈ l, keyFileErrs pfx q.1 q.2 = .ok []) →
      ∃ ess, l.mapM (fun q => keyFileErrs pfx q.1 q.2) = .ok ess ∧ ess.flatten = []
  | [], _ => ⟨[], by rw [List.mapM_nil]; exact rfl, rfl⟩
  | q :: rest, h => by
    obtain ⟨ess, hm, hf⟩ := mapM_kf_ok pfx rest (fun q hq => h q (List.mem_cons_of_mem _ hq))
    refine ⟨[] :: ess, ?_, by simp [hf]⟩
    rw [List.mapM_cons, h q (List.mem_cons_self _ _), hm]
    rfl

theorem mapM_validate_ok :
    ∀ (l : List (String × JVal)), (∀ kv ∈ l, validateDirectoryEntry kv.1 kv.2 = .ok []) →
      ∃ ess, l.mapM (fun kv => validateDirectoryEntry kv.1 kv.2) = .ok ess ∧ ess.flatten = []
  | [], _ => ⟨[], by rw [List.mapM_nil]; exact rfl, rfl⟩
  | kv :: rest, h => by
    obtain ⟨ess, hm, hf⟩ := mapM_validate_ok rest (fun kv hkv => h kv (List.mem_cons_of_mem _ hkv))
    refine ⟨[] :: ess, ?_, by simp [hf]⟩
    rw [List.mapM_cons, h kv (List.mem_cons_self _ _), hm]
    rfl

theorem hasKey_spreadMerge_left (a b : List (String × JVal)) (k : String)
    (h : hasKey a k = true) : hasKey (spreadMerge a b) k = true := by
  rw [hasKey_iff_mem] at h ⊢
  rw [spreadMerge, List.map_append]
  apply List.mem_append_left
  have hmap : ((a.map fun kv => (kv.1, if hasKey b kv.1 then lookupField b kv.1 else kv.2)).map
      Prod.fst) = a.map Prod.fst := by
    rw [List.map_map]
    apply List.map_congr_left
    intro kv _
    rfl
  rw [hmap]
  exact h

theorem ite_undef_empty {v : JVal} (msg : List String) (h : isUndef v = false) :
    (if isUndef (if isUndef v then JVal.undef else jsonRT v) then msg else []) = [] := by
  rw [show (if isUndef v then JVal.undef else jsonRT v) = jsonRT v from if_neg (by simp [h]),
    if_neg (show ¬ isUndef (jsonRT v) = true from by simp [jsonRT_ne_undef])]

theorem cplx_check {v : JVal} (p : String)
    (h : (match v with
      | JVal.num n => decide (1 ≤ n) && decide (n ≤ 5)
      | _ => false) = true) :
    (if isUndef (if isUndef v then JVal.undef else jsonRT v) then []
      else match (if isUndef v then JVal.undef else jsonRT v) with
        | .num n => if n < 1 || n > 5 then [complexityError p] else []
        | _ => [complexityError p]) = [] := by
  cases v with
  | num n =>
    simp only [Bool.and_eq_true, decide_eq_true_eq] at h
    simp only [isUndef, jsonRT, Bool.false_eq_true, if_false]
    rw [if_neg (show ¬ (n < 1 || n > 5) = true from by
      simp only [Bool.or_eq_true, decide_eq_true_eq]
      omega)]
  | null => simp at h
  | undef => simp at h
  | bool b => simp at h
  | str s => simp at h
  | arr xs => simp at h
  | obj fs => simp at h

theorem freq_check {v : JVal} (msg : List String)
    (h : (match v with
      | JVal.str s => validFrequencies.contains s
      | _ => false) = true) :
    (if isUndef (if isUndef v then JVal.undef else jsonRT v) then []
      else if (match (if isUndef v then JVal.undef else jsonRT v) with
          | .str s => validFrequencies.contains s
          | _ => false) then [] else msg) = [] := by
  cases v with
  | str s =>
    simp only [isUndef, jsonRT, Bool.false_eq_true, if_false]
    rw [if_pos h]
  | null => simp at h
  | undef => simp at h
  | bool b => simp at h
  | num n => simp at h
  | arr xs => simp at h
  | obj fs => simp at h

theorem arr_check {v : JVal} (h : isArrOrUndef v = true) :
    (!isUndef (if isUndef v then JVal.undef else jsonRT v) &&
      !isArr (if isUndef v then JVal.undef else jsonRT v)) = false := by
  cases v <;> simp_all [isArrOrUndef, isUndef, isArr, jsonRT]

theorem validateDirectoryEntry_of_good (p now : String) (info : List (String × JVal))
    (hg : info.all goodInfoField = true) (hnd : (info.map Prod.fst).Nodup) :
    validateDirectoryEntry p
      (jsonRT (.obj (setField (spreadMerge (createDirectoryEntry now []) info)
        "lastUpdated" (.str now)))) = .ok [] := by
  have hgm := List.all_eq_true.mp hg
  have hdk : ((createDirectoryEntry now []).map Prod.fst).Nodup := by
    rw [show (createDirectoryEntry now []).map Prod.fst = entryFieldNames from rfl]
    decide
  have hnd_ef : ((setField (spreadMerge (createDirectoryEntry now []) info) "lastUpdated"
      (.str now)).map Prod.fst).Nodup := by
    rw [setField_keys _ _ _ (hasKey_spreadMerge_left _ info _
      (show hasKey (createDirectoryEntry now []) "lastUpdated" = true from rfl))]
    exact spreadMerge_keys_nodup _ info hdk hnd
  have hval : ∀ k : String, ("lastUpdated" == k) = false →
      hasKey (createDirectoryEntry now []) k = true →
      lookupField (setField (spreadMerge (createDirectoryEntry now []) info) "lastUpdated"
        (.str now)) k =
        if hasKey info k then lookupField info k
        else lookupField (createDirectoryEntry now []) k := by
    intro k hne hdef
    rw [lookupField_setField_ne _ _ _ _ hne, lookupField_spreadMerge _ _ _ hdef]
  have hW : ∀ k : String, ("lastUpdated" == k) = false →
      hasKey (createDirectoryEntry now []) k = true →
      lookupField (jsonRTFields (setField (spreadMerge (createDirectoryEntry now []) info)
        "lastUpdated" (.str now))) k =
        (if isUndef (if hasKey info k then lookupField info k
            else lookupField (createDirectoryEntry now []) k) then JVal.undef
         else jsonRT (if hasKey info k then lookupField info k
            else lookupField (createDirectoryEntry now []) k)) := by
    intro k hne hdef
    rw [lookupField_jsonRTFields hnd_ef k, hval k hne hdef]
  rw [show jsonRT (JVal.obj (setField (spreadMerge (createDirectoryEntry now []) info)
      "lastUpdated" (.str now))) =
    JVal.obj (jsonRTFields (setField (spreadMerge (createDirectoryEntry now []) info)
      "lastUpdated" (.str now))) from rfl]
  rw [validateDirectoryEntry_obj]
  set FS := jsonRTFields (setField (spreadMerge (createDirectoryEntry now []) info)
    "lastUpdated" (.str now)) with hFS
  have hE1 : (if isUndef (lookupField FS "purpose")
      then [entryPfx p ++ " missing 'purpose' field"] else []) = [] := by
    rw [hFS, hW "purpose" (by decide) rfl]
    apply ite_undef_empty
    by_cases hk : hasKey info "purpose" = true
    · rw [if_pos hk]
      have h2 : (!isUndef (lookupField info "purpose")) = true := hgm _ (lookup_mem hk)
      simpa using h2
    · rw [if_neg hk]
      rfl
  have hE2 : (if isUndef (lookupField FS "complexity") then []
      else match lookupField FS "complexity" with
        | .num n => if n < 1 || n > 5 then [complexityError p] else []
        | _ => [complexityError p]) = [] := by
    rw [hFS, hW "complexity" (by decide) rfl]
    apply cplx_check
    by_cases hk : hasKey info "complexity" = true
    · rw [if_pos hk]
      exact hgm _ (lookup_mem hk)
    · rw [if_neg hk]
      rfl
  have hE3 : (if isUndef (lookupField FS "changeFrequency") then []
      else if (match lookupField FS "changeFrequency" with
          | .str s => validFrequencies.contains s
          | _ => false) then []
        else [entryPfx p ++ " changeFrequency must be one of: Stable, Moderate, Frequently Modified, Unknown"]) = [] := by
    rw [hFS, hW "changeFrequency" (by decide) rfl]
    apply freq_check
    by_cases hk : hasKey info "changeFrequency" = true
    · rw [if_pos hk]
      exact hgm _ (lookup_mem hk)
    · rw [if_neg hk]
      rfl
  have hA : ∀ k : String, ("lastUpdated" == k) = false →
      hasKey (createDirectoryEntry now []) k = true →
      lookupField (createDirectoryEntry now []) k = JVal.arr [] →
      (∀ v : JVal, goodInfoField (k, v) = true → isArrOrUndef v = true) →
      (!isUndef (lookupField FS k) && !isArr (lookupField FS k)) = false := by
    intro k hne hdef hdv hgood
    rw [hFS, hW k hne hdef]
    apply arr_check
    by_cases hk : hasKey info k = true
    · rw [if_pos hk]
      exact hgood _ (hgm _ (lookup_mem hk))
    · rw [if_neg hk, hdv]
      rfl
  have hA1 := hA "entryPoints" (by decide) rfl rfl (fun v hv => hv)
  have hA2 := hA "internalDeps" (by decide) rfl rfl (fun v hv => hv)
  have hA3 := hA "externalDeps" (by decide) rfl rfl (fun v hv => hv)
  have hA4 := hA "subdirectories" (by decide) rfl rfl (fun v hv => hv)
  simp only [hE1, hE2, hE3, hA1, hA2, hA3, hA4, Bool.false_eq_true, if_false,
    List.nil_append, List.append_nil]
  by_cases hk : hasKey info "keyFiles" = true
  · have hgood : goodKeyFiles (lookupField info "keyFiles") = true := hgm _ (lookup_mem hk)
    have hvKF : lookupField FS "keyFiles" =
        if isUndef (lookupField info "keyFiles") then JVal.undef
        else jsonRT (lookupField info "keyFiles") := by
      rw [hFS, hW "keyFiles" (by decide) rfl, if_pos hk]
    rcases hkfv : lookupField info "keyFiles" with _ | _ | b | n | s | kfs | f
    · rw [hkfv] at hgood; simp [goodKeyFiles] at hgood
    · rw [hkfv] at hvKF
      rw [show (if isUndef JVal.undef then JVal.undef else jsonRT JVal.undef) = JVal.undef
        from rfl] at hvKF
      rw [hvKF]
      rfl
    · rw [hkfv] at hgood; simp [goodKeyFiles] at hgood
    · rw [hkfv] at hgood; simp [goodKeyFiles] at hgood
    · rw [hkfv] at hgood; simp [goodKeyFiles] at hgood
    · rw [hkfv] at hvKF hgood
      rw [show (if isUndef (JVal.arr kfs) then JVal.undef else jsonRT (JVal.arr kfs)) =
        JVal.arr (jsonRTList kfs) from rfl] at hvKF
      rw [hvKF, if_neg (by simp [isUndef])]
      have helems : ∀ q ∈ (jsonRTList kfs).enum,
          keyFileErrs (entryPfx p) q.1 q.2 = Except.ok [] := by
        intro q hq
        rw [jsonRTList_eq_map] at hq
        have h1 := List.mem_enum_iff_get?.mp hq
        rw [List.get?_map] at h1
        cases hg2 : kfs.get? q.1 with
        | none => rw [hg2] at h1; exact (nomatch h1)
        | some kf =>
          rw [hg2] at h1
          have hq2 : q.2 = jsonRT kf := by
            have := h1.symm
            simp only [Option.map_some'] at this
            exact (Option.some.inj this)
          rw [hq2]
          apply keyFileErrs_good
          have hall : kfs.all goodKeyFile = true := by simpa [goodKeyFiles] using hgood
          exact List.all_eq_true.mp hall _ (List.get?_mem hg2)
      obtain ⟨ess, hm, hf⟩ := mapM_kf_ok (entryPfx p) (jsonRTList kfs).enum helems
      show Except.bind ((jsonRTList kfs).enum.mapM (fun q => keyFileErrs (entryPfx p) q.1 q.2))
        (fun ess => Except.ok ess.flatten) = Except.ok []
      rw [hm]
      show Except.ok ess.flatten = Except.ok []
      rw [hf]
    · rw [hkfv] at hgood; simp [goodKeyFiles] at hgood
  · have hvKF : lookupField FS "keyFiles" = JVal.arr [] := by
      rw [hFS, hW "keyFiles" (by decide) rfl, if_neg hk]
      rfl
    rw [hvKF, if_neg (by simp [isUndef])]
    rfl

theorem mem_setField {l : List (String × JVal)} {k : String} {v : JVal} {kv : String × JVal}
    (h : kv ∈ setField l k v) : kv.2 = v ∨ kv ∈ l := by
  rw [setField] at h
  split at h
  · rcases List.mem_map.mp h with ⟨kv0, hkv0, heq⟩
    by_cases hk : (kv0.1 == k) = true
    · rw [if_pos hk] at heq
      left
      rw [show kv = (kv0.1, v) from heq.symm]
    · rw [if_neg hk] at heq
      right
      exact heq ▸ hkv0
  · rcases List.mem_append.mp h with h1 | h1
    · right; exact h1
    · left
      have he : kv = (k, v) := by simpa using h1
      rw [he]

theorem validateMap_of_entries (dateOk : String → Bool) (now : String)
    (es : List (String × JVal))
    (hnow : truthy (JVal.str now) = true) (hdate : dateOk now = true)
    (hv : ∀ kv ∈ es, validateDirectoryEntry kv.1 kv.2 = Except.ok []) :
    validateMap dateOk (JVal.obj [("generated", JVal.str now), ("directories", JVal.obj es)]) =
      Except.ok ⟨true, []⟩ := by
  obtain ⟨ess, hm, hf⟩ := mapM_validate_ok es hv
  rw [show validateMap dateOk
      (JVal.obj [("generated", JVal.str now), ("directories", JVal.obj es)]) =
    Except.bind (es.mapM (fun kv => validateDirectoryEntry kv.1 kv.2))
      (fun ess => Except.bind (Except.ok ess.flatten)
        (fun e2 =>
          Except.ok ⟨((if !truthy (JVal.str now) then ["Missing required field: generated"]
              else if !dateOk now then ["Invalid date format for generated field"] else []) ++ e2).isEmpty,
            (if !truthy (JVal.str now) then ["Missing required field: generated"]
              else if !dateOk now then ["Invalid date format for generated field"] else []) ++ e2⟩))
    from rfl]
  rw [hm]
  show Except.ok ⟨((if !truthy (JVal.str now) then ["Missing required field: generated"]
      else if !dateOk now then ["Invalid date format for generated field"] else []) ++ ess.flatten).isEmpty,
    (if !truthy (JVal.str now) then ["Missing required field: generated"]
      else if !dateOk now then ["Invalid date format for generated field"] else []) ++ ess.flatten⟩ =
    Except.ok (⟨true, []⟩ : VResult)
  rw [hf, hnow, hdate]
  simp

theorem applyUpdates_good (now : String) :
    ∀ (updates : List (String × List (String × JVal))),
      updates.all (fun u => goodInfo u.2) = true →
      ∀ ds : List (String × JVal),
        (∀ kv ∈ ds, isUndef kv.2 = false ∧
          validateDirectoryEntry kv.1 (jsonRT kv.2) = Except.ok []) →
        ∃ ds2,
          applyUpdates now
            (JVal.obj [("generated", JVal.str now), ("directories", JVal.obj ds)]) updates =
            Except.ok (JVal.obj [("generated", JVal.str now), ("directories", JVal.obj ds2)]) ∧
          ∀ kv ∈ ds2, isUndef kv.2 = false ∧
            validateDirectoryEntry kv.1 (jsonRT kv.2) = Except.ok []
  | [], _, ds, hds => ⟨ds, rfl, hds⟩
  | (p, info) :: rest, hgood, ds, hds => by
    have hgp : goodInfo info = true ∧ rest.all (fun u => goodInfo u.2) = true := by
      simpa using hgood
    have hi : info.all goodInfoField = true ∧ (info.map Prod.fst).Nodup := by
      have := hgp.1
      simpa [goodInfo] using this
    have hinv : ∀ kv ∈ setField ds p (JVal.obj (setField
        (spreadMerge (createDirectoryEntry now []) info) "lastUpdated" (JVal.str now))),
        isUndef kv.2 = false ∧ validateDirectoryEntry kv.1 (jsonRT kv.2) = Except.ok [] := by
      intro kv hkv
      rcases mem_setField hkv with hv | hv
      · constructor
        · rw [hv]; rfl
        · rw [hv]
          exact validateDirectoryEntry_of_good kv.1 now info hi.1 hi.2
      · exact hds kv hv
    obtain ⟨ds2, h2, hinv2⟩ := applyUpdates_good now rest hgp.2 _ hinv
    refine ⟨ds2, ?_, hinv2⟩
    show Except.bind (updateMap now
        (JVal.obj [("generated", JVal.str now), ("directories", JVal.obj ds)]) p (JVal.obj info))
      (fun m2 => applyUpdates now m2 rest) =
      Except.ok (JVal.obj [("generated", JVal.str now), ("directories", JVal.obj ds2)])
    rw [show updateMap now
        (JVal.obj [("generated", JVal.str now), ("directories", JVal.obj ds)]) p (JVal.obj info) =
      Except.ok (JVal.obj [("generated", JVal.str now), ("directories", JVal.obj (setField ds p
        (JVal.obj (setField (spreadMerge (createDirectoryEntry now []) info)
          "lastUpdated" (JVal.str now)))))]) from rfl]
    exact h2

/-- C4 (amended): starting from `createEmptyMap` and applying any chain of
`updateMap` calls whose supplied partials each satisfy the entry rules
field-by-field (`goodInfo`) — and with a clock string that is nonempty and
parses as a date — the resulting map survives a JSON round trip and
`validateMap` accepts it: `{ valid: true, errors: [] }`. The unrestricted
claim is refuted by `roundtrip_invalid_counterexample`. -/
theorem roundtrip_valid_of_good (dateOk : String → Bool) (now : String)
    (updates : List (String × List (String × JVal)))
    (hnow : truthy (JVal.str now) = true) (hdate : dateOk now = true)
    (hgood : updates.all (fun u => goodInfo u.2) = true) :
    ∃ m, applyUpdates now (createEmptyMap now) updates = Except.ok m ∧
      validateMap dateOk (jsonRT m) = Except.ok ⟨true, []⟩ := by
  obtain ⟨ds2, h2, hinv⟩ := applyUpdates_good now updates hgood []
    (by intro kv hkv; exact (nomatch hkv))
  refine ⟨_, h2, ?_⟩
  rw [show jsonRT (JVal.obj [("generated", JVal.str now), ("directories", JVal.obj ds2)]) =
    JVal.obj [("generated", JVal.str now), ("directories", JVal.obj (jsonRTFields ds2))]
    from rfl]
  apply validateMap_of_entries dateOk now _ hnow hdate
  intro kv hkv
  rw [jsonRTFields_map (fun kv2 hkv2 => (hinv kv2 hkv2).1)] at hkv
  rcases List.mem_map.mp hkv with ⟨kv0, hkv0, heq⟩
  rw [← heq]
  exact (hinv kv0 hkv0).2

theorem roundtrip_valid_of_good_witness :
    (truthy (JVal.str nowT) = true ∧ alwaysDate nowT = true ∧
      ([("/a", [("complexity", JVal.num 3)])] :
        List (String × List (String × JVal))).all (fun u => goodInfo u.2) = true) ∧
    (∃ m, applyUpdates nowT (createEmptyMap nowT) [("/a", [("complexity", JVal.num 3)])] =
        Except.ok m ∧
      validateMap alwaysDate (jsonRT m) = Except.ok ⟨true, []⟩) :=
  ⟨⟨by decide, rfl, by decide⟩,
    roundtrip_valid_of_good alwaysDate nowT [("/a", [("complexity", JVal.num 3)])]
      (by decide) rfl (by decide)⟩
